import Mathlib

/-!
Verification of the adaptive Gauss-Kronrod quadrature core of classylss
(src/classy_lss/_gcl/include/Quadrature.inl).

Embedding conventions.

* C doubles are embedded as exact rationals (ℚ).  Every arithmetic
  operation the integrator performs on doubles is a ring operation,
  an absolute value, a max, or a comparison, so each is mirrored by the
  corresponding exact operation on ℚ; floating-point rounding is not
  modelled.  The constants DBL_EPSILON and DBL_MIN are the exact
  rationals 2 ^ (-52) and 2 ^ (-1022); the literal 0.5e-28 from the
  tolerance check is the exact rational 5 / 10 ^ 29.
* The out-parameters `double* pabserr` and `int* pneval` of
  GKWorkspace::Integrate are modelled as in-out values: the caller
  supplies their current contents (abserr0, neval0), and the returned
  record holds their contents after the call.  A path that never writes
  through a pointer returns the supplied value unchanged.
* `ReportError(code)` (body in Quadrature.cpp, not part of src/) is
  modelled by the `diag` field of the result: `some code` when
  ReportError is invoked with `code`, `none` when it is never invoked.
* The bodies of GKWorkspace::GaussKronrod, GetMaxInterval, Update,
  SumResults and of the WorkspaceManager methods live in Quadrature.cpp,
  which is not under src/; those definitions are modelled from the spec
  and carry a doc comment starting with `Modelled from the spec:`.
  Everything else is a direct translation of Quadrature.inl.
-/

attribute [local semireducible] Rat.add Rat.mul Rat.sub Rat.inv Rat.ofScientific

set_option maxRecDepth 40000

/-- DBL_EPSILON for IEEE-754 doubles, the exact rational 2 ^ (-52). -/
def machineEps : ℚ := mkRat 1 (2 ^ 52)

/-- DBL_MIN for IEEE-754 doubles, the exact rational 2 ^ (-1022).
The denominator is written as a product so that every literal exponent
stays small. -/
def dblMin : ℚ := mkRat 1 (((2 ^ 256) ^ 3) * 2 ^ 254)

/-- The literal 0.5e-28 from the tolerance precondition of
GKWorkspace::Integrate (line 93), as the exact rational 5 / 10 ^ 29. -/
def halfE28 : ℚ := mkRat 5 (10 ^ 29)

/-- GK_LIMIT (Quadrature.inl line 13): default maximum number of
subintervals of a GKWorkspace. -/
def GK_LIMIT : ℕ := 8192

/-- The fixed data of the 15-point Gauss-Kronrod rule.  The weight and
abscissa tables wg15, wgk15, xgk15 are declared in Quadrature.inl
(lines 54-56) but their values live in Quadrature.cpp, which is not part
of src/, so the development is parameterised over them.  `rescaleError`
is the nonlinear error-rescaling map described in spec section 4.1
(raw error, resabs, resasc ↦ reported error); its formula uses a
fractional power, so it is kept as an opaque-to-the-model parameter as
well: no claim below depends on its values. -/
structure GKTables where
  wg15 : Fin 4 → ℚ
  wgk15 : Fin 8 → ℚ
  xgk15 : Fin 8 → ℚ
  rescaleError : ℚ → ℚ → ℚ → ℚ

/-- Result quadruple of the fixed 15-point rule: integral estimate,
error estimate, resabs (integral of the absolute value) and resasc
(oscillation estimate). -/
structure GK15Out where
  estimate : ℚ
  abserr : ℚ
  resabs : ℚ
  resasc : ℚ
deriving DecidableEq

/-- Weighted Kronrod-style sum: weight 7 goes with the centre value and
weights 0..6 with the symmetric pairs, each value first transformed by
`g` (identity for the estimate, absolute value for resabs, distance to
the mean for resasc). -/
def kronrodWeighted (w : Fin 8 → ℚ) (g : ℚ → ℚ) (fc : ℚ) (fv1 fv2 : Fin 8 → ℚ) : ℚ :=
  w 7 * g fc +
    (w 0 * (g (fv1 0) + g (fv2 0)) + w 1 * (g (fv1 1) + g (fv2 1)) +
     w 2 * (g (fv1 2) + g (fv2 2)) + w 3 * (g (fv1 3) + g (fv2 3)) +
     w 4 * (g (fv1 4) + g (fv2 4)) + w 5 * (g (fv1 5) + g (fv2 5)) +
     w 6 * (g (fv1 6) + g (fv2 6)))

/-- Embedded 7-point Gauss sum: the Gauss weights pair with the centre
value and with the odd-indexed abscissa pairs. -/
def gauss7Sum (w : Fin 4 → ℚ) (fc : ℚ) (fv1 fv2 : Fin 8 → ℚ) : ℚ :=
  w 3 * fc +
    (w 0 * (fv1 1 + fv2 1) + w 1 * (fv1 3 + fv2 3) + w 2 * (fv1 5 + fv2 5))

/-- Modelled from the spec: the body of the static combination routine
`GKWorkspace::GaussKronrod` is in Quadrature.cpp, which is not under
src/.  Following spec section 4.1, it combines the centre value and the
seven symmetric pairs with the weight tables into the 15-point estimate
K (scaled by the half-width), the embedded 7-point estimate G, the scale
estimate resabs, the oscillation estimate resasc, and derives the
reported error from the raw difference by the rescaling map.  It reads
only `fc`, slots 0..6 of `fv1` and `fv2`, and `half`. -/
def GKWorkspace.GaussKronrod (T : GKTables) (fc : ℚ) (fv1 fv2 : Fin 8 → ℚ)
    (half : ℚ) : GK15Out :=
  let kSum := kronrodWeighted T.wgk15 id fc fv1 fv2
  let gSum := gauss7Sum T.wg15 fc fv1 fv2
  let resabs := |half| * kronrodWeighted T.wgk15 (fun v => |v|) fc fv1 fv2
  let mean := kSum * (1 / 2)
  let resasc := |half| * kronrodWeighted T.wgk15 (fun v => |v - mean|) fc fv1 fv2
  let raw := |(kSum - gSum) * half|
  { estimate := half * kSum
    abserr := T.rescaleError raw resabs resasc
    resabs := resabs
    resasc := resasc }

/-- Centre of the interval: `c = 0.5*(a + b)` (Quadrature.inl line 68). -/
def gkCenter (a b : ℚ) : ℚ := (1 / 2) * (a + b)

/-- Half-width of the interval: `half = 0.5*(b - a)` (line 70). -/
def gkHalf (a b : ℚ) : ℚ := (1 / 2) * (b - a)

/-- Contents of the array fv1 after the two fill loops of
GKWorkspace::GaussKronrod15 (lines 72-81): slot j holds
`f(c - half*xgk15[j])` for j = 0..6.  Slot 7 is never written by the
loops (nor read by the combination routine); the model puts 0 there. -/
def gkFv1 (T : GKTables) (f : ℚ → ℚ) (a b : ℚ) : Fin 8 → ℚ := fun j =>
  if j.val = 7 then 0 else f (gkCenter a b - gkHalf a b * T.xgk15 j)

/-- Contents of the array fv2 after the two fill loops (lines 72-81):
slot j holds `f(c + half*xgk15[j])` for j = 0..6; slot 7 as in `gkFv1`. -/
def gkFv2 (T : GKTables) (f : ℚ → ℚ) (a b : ℚ) : Fin 8 → ℚ := fun j =>
  if j.val = 7 then 0 else f (gkCenter a b + gkHalf a b * T.xgk15 j)

/-- GKWorkspace::GaussKronrod15 (Quadrature.inl lines 62-83): evaluate f
at the centre and at the seven symmetric abscissa pairs, then hand the
values to the combination routine. -/
def GKWorkspace.GaussKronrod15 (T : GKTables) (f : ℚ → ℚ) (a b : ℚ) : GK15Out :=
  GKWorkspace.GaussKronrod T (f (gkCenter a b)) (gkFv1 T f a b) (gkFv2 T f a b)
    (gkHalf a b)

/-- The list of arguments at which GaussKronrod15 evaluates f, in the
order the source performs the calls (lines 69-81): the centre first,
then the odd-indexed pairs (first loop), then the even-indexed pairs
(second loop). -/
def gk15EvalPoints (T : GKTables) (a b : ℚ) : List ℚ :=
  let c := gkCenter a b
  let h := gkHalf a b
  [c,
   c - h * T.xgk15 1, c + h * T.xgk15 1,
   c - h * T.xgk15 3, c + h * T.xgk15 3,
   c - h * T.xgk15 5, c + h * T.xgk15 5,
   c - h * T.xgk15 0, c + h * T.xgk15 0,
   c - h * T.xgk15 2, c + h * T.xgk15 2,
   c - h * T.xgk15 4, c + h * T.xgk15 4,
   c - h * T.xgk15 6, c + h * T.xgk15 6]

/-- A symmetric pair of evaluation points around the centre c at
distance d. -/
def symmPair (c d : ℚ) : List ℚ := [c - d, c + d]

/-- GKWorkspace (Quadrature.inl lines 20-27): capacity, current number
of live subintervals, and the interval arrays.  Arrays are modelled as
total maps from slot index to contents, so that a workspace can hold
arbitrary stale data beyond (or before) the live prefix, exactly as the
reused C buffers do. -/
structure GKWorkspace where
  limit : ℕ
  size : ℕ
  alist : ℕ → ℚ
  blist : ℕ → ℚ
  rlist : ℕ → ℚ
  elist : ℕ → ℚ
  order : ℕ → ℕ

/-- Modelled from the spec: GetMaxInterval and the order-maintenance
code (Sort) live in Quadrature.cpp, not under src/.  Per spec sections
4.2 and 4.3 the engine always selects the live subinterval with the
largest error estimate, ties broken in favour of the first-inserted
(lowest slot).  This is the index of that subinterval. -/
def GKWorkspace.maxErrIndex (ws : GKWorkspace) : ℕ :=
  (List.range ws.size).foldl (fun best j => if ws.elist best < ws.elist j then j else best) 0

/-- Modelled from the spec: the body of GKWorkspace::Update is in
Quadrature.cpp, not under src/.  Per spec section 4.3 (replace_max) the
two children replace the selected parent: the first child overwrites the
parent slot `i`, the second child occupies the first fresh slot, and the
live count grows by one. -/
def GKWorkspace.update (ws : GKWorkspace) (i : ℕ) (a1 b1 r1 e1 a2 b2 r2 e2 : ℚ) :
    GKWorkspace :=
  { ws with
    size := ws.size + 1
    alist := fun j => if j = i then a1 else if j = ws.size then a2 else ws.alist j
    blist := fun j => if j = i then b1 else if j = ws.size then b2 else ws.blist j
    rlist := fun j => if j = i then r1 else if j = ws.size then r2 else ws.rlist j
    elist := fun j => if j = i then e1 else if j = ws.size then e2 else ws.elist j }

/-- Modelled from the spec: the result half of GKWorkspace::SumResults
(body in Quadrature.cpp, not under src/): the sum of the estimates of
all live subintervals.  Spec section 4.2 prescribes an order-sensitive
pairwise summation to limit round-off; over exact rationals every
summation order has the same value, so the plain left-to-right sum is
used. -/
def GKWorkspace.sumRlist (ws : GKWorkspace) : ℚ :=
  ((List.range ws.size).map ws.rlist).sum

/-- Modelled from the spec: the error half of GKWorkspace::SumResults,
the sum of the error estimates of all live subintervals (see
`GKWorkspace.sumRlist`). -/
def GKWorkspace.sumElist (ws : GKWorkspace) : ℚ :=
  ((List.range ws.size).map ws.elist).sum

/-- Workspace initialisation performed by Integrate (lines 111-117):
the live count becomes 1 and slot 0 receives the whole interval with its
bootstrap estimate and error. -/
def GKWorkspace.initSeed (ws : GKWorkspace) (a b r e : ℚ) : GKWorkspace :=
  { ws with
    size := 1
    alist := fun j => if j = 0 then a else ws.alist j
    blist := fun j => if j = 0 then b else ws.blist j
    rlist := fun j => if j = 0 then r else ws.rlist j
    elist := fun j => if j = 0 then e else ws.elist j
    order := fun j => if j = 0 then 0 else ws.order j }

/-- The mutable state of the adaptive loop of GKWorkspace::Integrate
(lines 119-129): the workspace plus the running totals, the tolerance
variable, the error code, the iteration counter and the evaluation
counter. -/
structure GKLoopState where
  ws : GKWorkspace
  area : ℚ
  errsum : ℚ
  tolerance : ℚ
  errorCode : ℕ
  iteration : ℕ
  neval : ℕ

/-- One pass of the do-while loop of GKWorkspace::Integrate
(lines 130-164): select the worst subinterval, bisect it, apply the
15-point rule to both children (30 evaluations), update the running
totals and the tolerance, run the two diagnostic checks, store the two
children, and advance the iteration counter. -/
def gkBody (T : GKTables) (f : ℚ → ℚ) (epsrel epsabs : ℚ) (st : GKLoopState) :
    GKLoopState :=
  let i := st.ws.maxErrIndex
  let aI := st.ws.alist i
  let bI := st.ws.blist i
  let rI := st.ws.rlist i
  let eI := st.ws.elist i
  let a1 := aI
  let b1 := (1 / 2) * (aI + bI)
  let a2 := b1
  let b2 := bI
  let o1 := GKWorkspace.GaussKronrod15 T f a1 b1
  let o2 := GKWorkspace.GaussKronrod15 T f a2 b2
  let area12 := o1.estimate + o2.estimate
  let error12 := o1.abserr + o2.abserr
  let errsum := st.errsum + (error12 - eI)
  let area := st.area + (area12 - rI)
  let tolerance := max epsabs (epsrel * |area|)
  let errorCode :=
    if tolerance < errsum then
      let tmp := (1 + 100 * machineEps) * (|a2| + 1000 * dblMin)
      let ec3 := if |a1| ≤ tmp ∧ |b2| ≤ tmp then 3 else st.errorCode
      if st.iteration = st.ws.limit then 4 else ec3
    else st.errorCode
  { ws := st.ws.update i a1 b1 o1.estimate o1.abserr a2 b2 o2.estimate o2.abserr
    area := area
    errsum := errsum
    tolerance := tolerance
    errorCode := errorCode
    iteration := st.iteration + 1
    neval := st.neval + 30 }

/-- The do-while loop of lines 130-165: run the body once, then repeat
while `iteration < limit && error_code == 0 && errsum > tolerance`.
The fuel argument bounds the number of repetitions; since every pass
increments the iteration counter and the guard requires
`iteration < limit`, fuel `limit` is always sufficient
(`gkLoop_fuel_stable` below). -/
def gkLoop (T : GKTables) (f : ℚ → ℚ) (epsrel epsabs : ℚ) :
    ℕ → GKLoopState → GKLoopState
  | 0, st => gkBody T f epsrel epsabs st
  | fuel + 1, st =>
    let st1 := gkBody T f epsrel epsabs st
    if st1.iteration < st1.ws.limit ∧ st1.errorCode = 0 ∧ st1.tolerance < st1.errsum
    then gkLoop T f epsrel epsabs fuel st1
    else st1

/-- Lines 107-165 of GKWorkspace::Integrate for an already ordered
interval: bootstrap with one application of the 15-point rule
(15 evaluations), seed the workspace, and run the adaptive loop. -/
def GKCore (T : GKTables) (ws : GKWorkspace) (f : ℚ → ℚ) (a b epsrel epsabs : ℚ) :
    GKLoopState :=
  let o := GKWorkspace.GaussKronrod15 T f a b
  let ws1 := ws.initSeed a b o.estimate o.abserr
  gkLoop T f epsrel epsabs ws1.limit
    { ws := ws1
      area := o.estimate
      errsum := o.abserr
      tolerance := 0
      errorCode := 0
      iteration := 1
      neval := 15 }

/-- Observable outcome of one call to GKWorkspace::Integrate: the return
value, the final contents of the abserr and neval out-parameters, and
the diagnostic (`some code` when ReportError(code) was invoked, `none`
otherwise). -/
structure GKResult where
  ret : ℚ
  abserrOut : ℚ
  nevalOut : ℕ
  diag : Option ℕ
deriving DecidableEq

/-- The tolerance precondition of line 93:
`epsabs <= 0 && (epsrel < 50*DBL_EPSILON || epsrel < 0.5e-28)`. -/
def invalidTol (epsrel epsabs : ℚ) : Prop :=
  epsabs ≤ 0 ∧ (epsrel < 50 * machineEps ∨ epsrel < halfE28)

instance (epsrel epsabs : ℚ) : Decidable (invalidTol epsrel epsabs) :=
  decidable_of_iff (epsabs ≤ 0 ∧ (epsrel < 50 * machineEps ∨ epsrel < halfE28))
    Iff.rfl

/-- Lines 107-177 of GKWorkspace::Integrate after direction
normalisation: run the core on the ordered interval, re-sum the live
entries, apply the final warning check `abserr > tolerance` (which
invokes ReportError with the accumulated error code), write the
out-parameters, and return `sign * result`. -/
def gkFinish (T : GKTables) (ws : GKWorkspace) (f : ℚ → ℚ)
    (lo hi sign epsrel epsabs : ℚ) : GKResult × GKWorkspace :=
  let fin := GKCore T ws f lo hi epsrel epsabs
  let result := fin.ws.sumRlist
  let abserr := fin.ws.sumElist
  ({ ret := sign * result
     abserrOut := abserr
     nevalOut := fin.neval
     diag := if fin.tolerance < abserr then some fin.errorCode else none },
   fin.ws)

/-- GKWorkspace::Integrate (Quadrature.inl lines 86-178).  On an invalid
tolerance request it invokes ReportError(1) and returns 0 without
touching the workspace, the integrand, or the out-parameters
(lines 92-96).  Otherwise it orders the bounds, remembering a sign to
apply to the final result (lines 98-105), and runs the adaptive
algorithm. -/
def GKWorkspace.Integrate (T : GKTables) (ws : GKWorkspace) (f : ℚ → ℚ)
    (a b epsrel epsabs abserr0 : ℚ) (neval0 : ℕ) : GKResult × GKWorkspace :=
  if invalidTol epsrel epsabs then
    ({ ret := 0, abserrOut := abserr0, nevalOut := neval0, diag := some 1 }, ws)
  else if b < a then
    gkFinish T ws f b a (-1) epsrel epsabs
  else
    gkFinish T ws f a b 1 epsrel epsabs

/-- A fresh GKWorkspace as produced by the constructor (declared line 30,
body in Quadrature.cpp): given capacity, empty live prefix, zeroed
buffers. -/
def freshGKWorkspace (limit : ℕ) : GKWorkspace :=
  { limit := limit
    size := 0
    alist := fun _ => 0
    blist := fun _ => 0
    rlist := fun _ => 0
    elist := fun _ => 0
    order := fun _ => 0 }

/-- The process-wide list of Gauss-Kronrod workspaces of the
WorkspaceManager (lines 198-218), each paired with its in-use flag
(`true` = currently lent out). -/
abbrev GKPool := List (GKWorkspace × Bool)

/-- Modelled from the spec: the body of
WorkspaceManager::get_gk_workspace is in Quadrature.cpp, not under src/.
Per the comment block at lines 191-197 and spec section 4.4 it scans the
registry for an existing workspace that is not in use, marks it in use
and returns it; only when none is free does it register a fresh
workspace (with the default capacity), marked in use.  Returns the
position of the lent entry, the lent workspace, and the updated
registry. -/
def poolAcquire : GKPool → ℕ × GKWorkspace × GKPool
  | [] => (0, freshGKWorkspace GK_LIMIT, [(freshGKWorkspace GK_LIMIT, true)])
  | (w, false) :: rest => (0, w, (w, true) :: rest)
  | (w, true) :: rest =>
    let r := poolAcquire rest
    (r.1 + 1, r.2.1, (w, true) :: r.2.2)

/-- Modelled from the spec: the body of
WorkspaceManager::release_gk_workspace is in Quadrature.cpp, not under
src/.  It marks the entry at the given position free again, storing the
returned workspace; nothing is deallocated. -/
def poolRelease : GKPool → ℕ → GKWorkspace → GKPool
  | [], _, _ => []
  | _ :: rest, 0, w => (w, false) :: rest
  | e :: rest, i + 1, w => e :: poolRelease rest i w

/-- The public Integrate wrapper (Quadrature.inl lines 226-232): acquire
a workspace from the process-wide pool, run GKWorkspace::Integrate on
it, release the workspace, return the result. -/
def Integrate (T : GKTables) (p : GKPool) (f : ℚ → ℚ)
    (a b epsrel epsabs abserr0 : ℚ) (neval0 : ℕ) : GKResult × GKPool :=
  let acq := poolAcquire p
  let r := GKWorkspace.Integrate T acq.2.1 f a b epsrel epsabs abserr0 neval0
  (r.1, poolRelease acq.2.2 acq.1 r.2)

/-- A substitution strategy as used by the Integrate<Sub> entry point:
coordinate map x(u), its derivative dxdu(u), and the bound transform
u(a). -/
structure SubStrategy where
  x : ℚ → ℚ
  dxdu : ℚ → ℚ
  u : ℚ → ℚ

/-- SubFunc (Quadrature.inl lines 237-243): the composed integrand
`g(u) = f(x(u)) * dxdu(u)`. -/
def SubFunc (f : ℚ → ℚ) (s : SubStrategy) : ℚ → ℚ :=
  fun v => f (s.x v) * s.dxdu v

/-- The substitution entry point Integrate<Sub> (lines 245-252): acquire
a workspace, run GKWorkspace::Integrate on the composed integrand over
the transformed bounds (u(a), u(b)), release the workspace. -/
def IntegrateSub (T : GKTables) (p : GKPool) (f : ℚ → ℚ)
    (a b epsrel epsabs abserr0 : ℚ) (neval0 : ℕ) (s : SubStrategy) :
    GKResult × GKPool :=
  let acq := poolAcquire p
  let r := GKWorkspace.Integrate T acq.2.1 (SubFunc f s) (s.u a) (s.u b)
    epsrel epsabs abserr0 neval0
  (r.1, poolRelease acq.2.2 acq.1 r.2)

/-- Concrete table instance for witnesses: all weights, abscissas and
error rescalings zero. -/
def zeroTables : GKTables :=
  { wg15 := fun _ => 0
    wgk15 := fun _ => 0
    xgk15 := fun _ => 0
    rescaleError := fun _ _ _ => 0 }

/-- Concrete table instance for witnesses whose runs must fail to
converge: every subinterval reports error estimate 1, mimicking an
integrand (such as one with an inverse-square-root singularity) whose
local error never decays. -/
def oneErrTables : GKTables :=
  { wg15 := fun _ => 0
    wgk15 := fun _ => 0
    xgk15 := fun _ => 0
    rescaleError := fun _ _ _ => 1 }

/-- A workspace with capacity 4 and clean buffers, for witnesses. -/
def ws4 : GKWorkspace := freshGKWorkspace 4

/-- A workspace with capacity 4 whose buffers and live count hold
arbitrary stale contents left by a previous integration, for the
state-independence witness. -/
def staleWs4 : GKWorkspace :=
  { limit := 4
    size := 3
    alist := fun _ => 5
    blist := fun _ => 7
    rlist := fun _ => 11
    elist := fun _ => 13
    order := fun _ => 2 }

@[simp] theorem gkBody_iteration (T : GKTables) (f : ℚ → ℚ) (er ea : ℚ)
    (st : GKLoopState) : (gkBody T f er ea st).iteration = st.iteration + 1 := rfl

@[simp] theorem gkBody_neval (T : GKTables) (f : ℚ → ℚ) (er ea : ℚ)
    (st : GKLoopState) : (gkBody T f er ea st).neval = st.neval + 30 := rfl

@[simp] theorem gkBody_ws_limit (T : GKTables) (f : ℚ → ℚ) (er ea : ℚ)
    (st : GKLoopState) : (gkBody T f er ea st).ws.limit = st.ws.limit := rfl

@[simp] theorem gkBody_ws_size (T : GKTables) (f : ℚ → ℚ) (er ea : ℚ)
    (st : GKLoopState) : (gkBody T f er ea st).ws.size = st.ws.size + 1 := rfl

/-- Every pass of the adaptive loop advances the iteration counter by
one, the evaluation counter by exactly 30, and the live subinterval
count by exactly one; the loop always runs at least one pass (do-while
semantics, line 130/165). -/
theorem gkLoop_counts (T : GKTables) (f : ℚ → ℚ) (er ea : ℚ) :
    ∀ fuel st, st.iteration < (gkLoop T f er ea fuel st).iteration ∧
      (gkLoop T f er ea fuel st).neval + 30 * st.iteration =
        st.neval + 30 * (gkLoop T f er ea fuel st).iteration ∧
      (gkLoop T f er ea fuel st).ws.size + st.iteration =
        st.ws.size + (gkLoop T f er ea fuel st).iteration := by
  intro fuel
  induction fuel with
  | zero =>
    intro st
    simp only [gkLoop, gkBody_iteration, gkBody_neval, gkBody_ws_size]
    omega
  | succ n ih =>
    intro st
    simp only [gkLoop]
    split
    · have h := ih (gkBody T f er ea st)
      simp only [gkBody_iteration, gkBody_neval, gkBody_ws_size] at h
      omega
    · simp only [gkBody_iteration, gkBody_neval, gkBody_ws_size]
      omega

/-- The loop never changes the workspace capacity. -/
theorem gkLoop_limit (T : GKTables) (f : ℚ → ℚ) (er ea : ℚ) :
    ∀ fuel st, (gkLoop T f er ea fuel st).ws.limit = st.ws.limit := by
  intro fuel
  induction fuel with
  | zero => intro st; simp only [gkLoop, gkBody_ws_limit]
  | succ n ih =>
    intro st
    simp only [gkLoop]
    split
    · rw [ih (gkBody T f er ea st), gkBody_ws_limit]
    · rw [gkBody_ws_limit]

/-- Fuel adequacy: because every pass increments the iteration counter
and the guard requires `iteration < limit`, any fuel at least
`limit - iteration` is as good as more fuel.  In particular the fuel
`limit` used by `GKCore` (with initial iteration 1) reproduces the
unbounded C do-while loop exactly. -/
theorem gkLoop_fuel_stable (T : GKTables) (f : ℚ → ℚ) (er ea : ℚ) :
    ∀ fuel st, st.ws.limit ≤ st.iteration + fuel →
      gkLoop T f er ea (fuel + 1) st = gkLoop T f er ea fuel st := by
  intro fuel
  induction fuel with
  | zero =>
    intro st h
    simp only [gkLoop]
    split
    · next hg =>
      exfalso
      have h1 : (gkBody T f er ea st).iteration = st.iteration + 1 := rfl
      have h2 : (gkBody T f er ea st).ws.limit = st.ws.limit := rfl
      omega
    · rfl
  | succ n ih =>
    intro st h
    simp only [gkLoop]
    split
    · next hg =>
      exact ih (gkBody T f er ea st) (by
        have h1 : (gkBody T f er ea st).iteration = st.iteration + 1 := rfl
        have h2 : (gkBody T f er ea st).ws.limit = st.ws.limit := rfl
        omega)
    · rfl

/-- Selecting by strict improvement over a list keeps the accumulator
inside any bound satisfied by the start value and all candidates. -/
theorem foldl_pick_lt (e : ℕ → ℚ) (n : ℕ) :
    ∀ (l : List ℕ) (init : ℕ), (∀ x ∈ l, x < n) → init < n →
      l.foldl (fun best j => if e best < e j then j else best) init < n := by
  intro l
  induction l with
  | nil => intro init _ h; simpa using h
  | cons x xs ih =>
    intro init hl hinit
    simp only [List.foldl_cons]
    refine ih _ (fun y hy => hl y (List.mem_cons_of_mem x hy)) ?_
    split
    · exact hl x (List.mem_cons_self x xs)
    · exact hinit

/-- The selected subinterval is always a live one. -/
theorem maxErrIndex_lt (ws : GKWorkspace) (h : 0 < ws.size) :
    ws.maxErrIndex < ws.size := by
  unfold GKWorkspace.maxErrIndex
  exact foldl_pick_lt ws.elist ws.size (List.range ws.size) 0
    (fun x hx => List.mem_range.mp hx) h

@[simp] theorem gkHalf_self (c : ℚ) : gkHalf c c = 0 := by
  simp [gkHalf]

/-- On a zero-width interval the 15-point estimate is zero: the
half-width factor of the combination formula vanishes. -/
theorem gk15_estimate_self (T : GKTables) (f : ℚ → ℚ) (c : ℚ) :
    (GKWorkspace.GaussKronrod15 T f c c).estimate = 0 := by
  simp [GKWorkspace.GaussKronrod15, GKWorkspace.GaussKronrod]

/-- Invariant used for the equal-bounds case: every live subinterval is
the degenerate interval [c, c] and carries estimate 0. -/
def zwInv (c : ℚ) (ws : GKWorkspace) : Prop :=
  0 < ws.size ∧ ∀ j < ws.size, ws.alist j = c ∧ ws.blist j = c ∧ ws.rlist j = 0

theorem zwInv_update (c : ℚ) (ws : GKWorkspace) (i : ℕ) (a1 b1 r1 e1 a2 b2 r2 e2 : ℚ)
    (h : zwInv c ws) (ha1 : a1 = c) (hb1 : b1 = c) (hr1 : r1 = 0)
    (ha2 : a2 = c) (hb2 : b2 = c) (hr2 : r2 = 0) :
    zwInv c (ws.update i a1 b1 r1 e1 a2 b2 r2 e2) := by
  obtain ⟨hpos, hall⟩ := h
  refine ⟨by simp only [GKWorkspace.update]; omega, ?_⟩
  intro j hj
  simp only [GKWorkspace.update] at hj ⊢
  by_cases hji : j = i
  · simp [hji, ha1, hb1, hr1]
  · by_cases hjs : j = ws.size
    · subst hjs
      simp [if_neg hji, ha2, hb2, hr2]
    · have hjlt : j < ws.size := by omega
      simp only [if_neg hji, if_neg hjs]
      exact hall j hjlt

theorem gkBody_zw (T : GKTables) (f : ℚ → ℚ) (er ea c : ℚ) (st : GKLoopState)
    (h : zwInv c st.ws) : zwInv c (gkBody T f er ea st).ws := by
  have hi : st.ws.maxErrIndex < st.ws.size := maxErrIndex_lt st.ws h.1
  obtain ⟨haI, hbI, hrI⟩ := h.2 _ hi
  have hb1 : (1 / 2 : ℚ) * (st.ws.alist st.ws.maxErrIndex + st.ws.blist st.ws.maxErrIndex) = c := by
    rw [haI, hbI]; ring
  have hr1 : (GKWorkspace.GaussKronrod15 T f (st.ws.alist st.ws.maxErrIndex)
      ((1 / 2) * (st.ws.alist st.ws.maxErrIndex + st.ws.blist st.ws.maxErrIndex))).estimate = 0 := by
    rw [hb1, haI]; exact gk15_estimate_self T f c
  have hr2 : (GKWorkspace.GaussKronrod15 T f
      ((1 / 2) * (st.ws.alist st.ws.maxErrIndex + st.ws.blist st.ws.maxErrIndex))
      (st.ws.blist st.ws.maxErrIndex)).estimate = 0 := by
    rw [hb1, hbI]; exact gk15_estimate_self T f c
  exact zwInv_update c st.ws _ _ _ _ _ _ _ _ _ h haI hb1 hr1 hb1 hbI hr2

theorem gkLoop_zw (T : GKTables) (f : ℚ → ℚ) (er ea c : ℚ) :
    ∀ fuel st, zwInv c st.ws → zwInv c (gkLoop T f er ea fuel st).ws := by
  intro fuel
  induction fuel with
  | zero => intro st h; exact gkBody_zw T f er ea c st h
  | succ n ih =>
    intro st h
    simp only [gkLoop]
    split
    · exact ih _ (gkBody_zw T f er ea c st h)
    · exact gkBody_zw T f er ea c st h

theorem sumRlist_zero (ws : GKWorkspace) (h : ∀ j < ws.size, ws.rlist j = 0) :
    ws.sumRlist = 0 := by
  unfold GKWorkspace.sumRlist
  apply List.sum_eq_zero
  intro x hx
  obtain ⟨j, hj, rfl⟩ := List.mem_map.mp hx
  exact h j (List.mem_range.mp hj)

/-- Integrating over a degenerate interval [c, c] yields result 0:
every subinterval ever stored has zero width, hence zero estimate. -/
theorem GKCore_self_sumRlist (T : GKTables) (ws : GKWorkspace) (f : ℚ → ℚ)
    (c er ea : ℚ) : (GKCore T ws f c c er ea).ws.sumRlist = 0 := by
  have hzw : zwInv c (ws.initSeed c c (GKWorkspace.GaussKronrod15 T f c c).estimate
      (GKWorkspace.GaussKronrod15 T f c c).abserr) := by
    refine ⟨by simp [GKWorkspace.initSeed], ?_⟩
    intro j hj
    simp only [GKWorkspace.initSeed] at hj
    have hj0 : j = 0 := by omega
    subst hj0
    simp [GKWorkspace.initSeed, gk15_estimate_self]
  have hfin := gkLoop_zw T f er ea c
      (ws.initSeed c c (GKWorkspace.GaussKronrod15 T f c c).estimate
        (GKWorkspace.GaussKronrod15 T f c c).abserr).limit
      { ws := ws.initSeed c c (GKWorkspace.GaussKronrod15 T f c c).estimate
          (GKWorkspace.GaussKronrod15 T f c c).abserr
        area := (GKWorkspace.GaussKronrod15 T f c c).estimate
        errsum := (GKWorkspace.GaussKronrod15 T f c c).abserr
        tolerance := 0
        errorCode := 0
        iteration := 1
        neval := 15 } hzw
  exact sumRlist_zero _ (fun j hj => (hfin.2 j hj).2.2)

/-- Two workspaces agree observably when they have the same capacity,
the same live count, and identical live entries; stale contents beyond
the live prefix (and the unread order array) are unconstrained. -/
def wsAgree (w1 w2 : GKWorkspace) : Prop :=
  w1.limit = w2.limit ∧ w1.size = w2.size ∧
    ∀ j < w1.size, w1.alist j = w2.alist j ∧ w1.blist j = w2.blist j ∧
      w1.rlist j = w2.rlist j ∧ w1.elist j = w2.elist j

/-- Two loop states agree observably when their workspaces agree and all
scalar components coincide. -/
def stAgree (s1 s2 : GKLoopState) : Prop :=
  wsAgree s1.ws s2.ws ∧ s1.area = s2.area ∧ s1.errsum = s2.errsum ∧
    s1.tolerance = s2.tolerance ∧ s1.errorCode = s2.errorCode ∧
    s1.iteration = s2.iteration ∧ s1.neval = s2.neval

theorem foldl_pick_congr (e1 e2 : ℕ → ℚ) :
    ∀ (l : List ℕ) (init : ℕ), (∀ x ∈ l, e1 x = e2 x) → e1 init = e2 init →
      l.foldl (fun best j => if e1 best < e1 j then j else best) init =
        l.foldl (fun best j => if e2 best < e2 j then j else best) init := by
  intro l
  induction l with
  | nil => intro init _ _; rfl
  | cons x xs ih =>
    intro init hl hinit
    simp only [List.foldl_cons]
    have hx := hl x (List.mem_cons_self x xs)
    have hstep : (if e1 init < e1 x then x else init) =
        (if e2 init < e2 x then x else init) := by rw [hinit, hx]
    rw [hstep]
    refine ih _ (fun y hy => hl y (List.mem_cons_of_mem x hy)) ?_
    split
    · exact hx
    · exact hinit

theorem maxErrIndex_agree (w1 w2 : GKWorkspace) (h : wsAgree w1 w2) :
    w1.maxErrIndex = w2.maxErrIndex := by
  obtain ⟨hlim, hsz, hval⟩ := h
  unfold GKWorkspace.maxErrIndex
  rw [← hsz]
  rcases Nat.eq_zero_or_pos w1.size with h0 | hpos
  · simp [h0]
  · exact foldl_pick_congr w1.elist w2.elist (List.range w1.size) 0
      (fun x hx => (hval x (List.mem_range.mp hx)).2.2.2) (hval 0 hpos).2.2.2

theorem wsAgree_update (w1 w2 : GKWorkspace) (h : wsAgree w1 w2) (i : ℕ)
    (a1 b1 r1 e1 a2 b2 r2 e2 : ℚ) :
    wsAgree (w1.update i a1 b1 r1 e1 a2 b2 r2 e2)
      (w2.update i a1 b1 r1 e1 a2 b2 r2 e2) := by
  obtain ⟨hlim, hsz, hval⟩ := h
  refine ⟨hlim, by simp [GKWorkspace.update, hsz], ?_⟩
  intro j hj
  simp only [GKWorkspace.update] at hj ⊢
  rw [← hsz]
  by_cases hji : j = i
  · simp [hji]
  · by_cases hjs : j = w1.size
    · simp [if_neg hji, hjs]
    · have hjlt : j < w1.size := by omega
      simp only [if_neg hji, if_neg hjs]
      exact hval j hjlt

theorem gkBody_agree (T : GKTables) (f : ℚ → ℚ) (er ea : ℚ)
    (s1 s2 : GKLoopState) (h : stAgree s1 s2) (hpos : 0 < s1.ws.size) :
    stAgree (gkBody T f er ea s1) (gkBody T f er ea s2) := by
  obtain ⟨⟨hlim, hsz, hval⟩, harea, herrsum, htol, hec, hit, hnev⟩ := h
  have hidx : s2.ws.maxErrIndex = s1.ws.maxErrIndex :=
    (maxErrIndex_agree s1.ws s2.ws ⟨hlim, hsz, hval⟩).symm
  have hi1 : s1.ws.maxErrIndex < s1.ws.size := maxErrIndex_lt s1.ws hpos
  obtain ⟨haI, hbI, hrI, heI⟩ := hval _ hi1
  unfold stAgree gkBody
  simp only [hidx, ← haI, ← hbI, ← hrI, ← heI, ← harea, ← herrsum, ← hec,
    ← hit, ← hnev, ← hlim]
  refine ⟨wsAgree_update s1.ws s2.ws ⟨hlim, hsz, hval⟩ _ _ _ _ _ _ _ _ _,
    ?_, ?_, ?_, ?_, ?_, ?_⟩ <;> trivial

theorem gkLoop_agree (T : GKTables) (f : ℚ → ℚ) (er ea : ℚ) :
    ∀ fuel s1 s2, stAgree s1 s2 → 0 < s1.ws.size →
      stAgree (gkLoop T f er ea fuel s1) (gkLoop T f er ea fuel s2) := by
  intro fuel
  induction fuel with
  | zero => intro s1 s2 h hpos; exact gkBody_agree T f er ea s1 s2 h hpos
  | succ n ih =>
    intro s1 s2 h hpos
    have hb := gkBody_agree T f er ea s1 s2 h hpos
    obtain ⟨⟨hlim, hsz, -⟩, -, herrsum, htol, hec, hit, -⟩ := id hb
    have hguard : ((gkBody T f er ea s1).iteration < (gkBody T f er ea s1).ws.limit ∧
        (gkBody T f er ea s1).errorCode = 0 ∧
        (gkBody T f er ea s1).tolerance < (gkBody T f er ea s1).errsum) ↔
        ((gkBody T f er ea s2).iteration < (gkBody T f er ea s2).ws.limit ∧
        (gkBody T f er ea s2).errorCode = 0 ∧
        (gkBody T f er ea s2).tolerance < (gkBody T f er ea s2).errsum) := by
      rw [hlim, hit, hec, htol, herrsum]
    simp only [gkLoop]
    by_cases hg : (gkBody T f er ea s1).iteration < (gkBody T f er ea s1).ws.limit ∧
        (gkBody T f er ea s1).errorCode = 0 ∧
        (gkBody T f er ea s1).tolerance < (gkBody T f er ea s1).errsum
    · rw [if_pos hg, if_pos (hguard.mp hg)]
      exact ih _ _ hb (by simp only [gkBody_ws_size]; omega)
    · rw [if_neg hg, if_neg (fun hh => hg (hguard.mpr hh))]
      exact hb

theorem sumRlist_agree (w1 w2 : GKWorkspace) (h : wsAgree w1 w2) :
    w1.sumRlist = w2.sumRlist := by
  obtain ⟨hlim, hsz, hval⟩ := h
  unfold GKWorkspace.sumRlist
  rw [← hsz]
  congr 1
  exact List.map_congr_left
    (fun j hj => (hval j (List.mem_range.mp hj)).2.2.1)

theorem sumElist_agree (w1 w2 : GKWorkspace) (h : wsAgree w1 w2) :
    w1.sumElist = w2.sumElist := by
  obtain ⟨hlim, hsz, hval⟩ := h
  unfold GKWorkspace.sumElist
  rw [← hsz]
  congr 1
  exact List.map_congr_left
    (fun j hj => (hval j (List.mem_range.mp hj)).2.2.2)

/-- One acquire/release round trip restores every in-use flag: if a free
entry was reused its flag returns to free; if a fresh entry had to be
registered, it is appended and ends up free. -/
theorem pool_roundtrip (w' : GKWorkspace) :
    ∀ p : GKPool,
      (poolRelease (poolAcquire p).2.2 (poolAcquire p).1 w').map Prod.snd =
          p.map Prod.snd ∨
      (poolRelease (poolAcquire p).2.2 (poolAcquire p).1 w').map Prod.snd =
          p.map Prod.snd ++ [false] := by
  intro p
  induction p with
  | nil => right; rfl
  | cons e rest ih =>
    obtain ⟨w, flag⟩ := e
    cases flag
    · left; rfl
    · rcases ih with h | h
      · left
        simp only [poolAcquire, poolRelease, List.map_cons]
        rw [h]
      · right
        simp only [poolAcquire, poolRelease, List.map_cons]
        rw [h]
        rfl

/-- C1: if `epsabs <= 0` and `epsrel < max(50*machine_epsilon, 0.5e-28)`,
GKWorkspace::Integrate evaluates the integrand zero times (the outcome
is the same for every integrand and does not depend on it) and returns a
zero result together with the InvalidTolerance diagnostic
(ReportError(1)); the workspace and both out-parameters are left
untouched. -/
theorem integrate_invalid_tolerance_early_return (T : GKTables)
    (ws : GKWorkspace) (f : ℚ → ℚ) (a b epsrel epsabs abserr0 : ℚ) (neval0 : ℕ)
    (hea : epsabs ≤ 0) (her : epsrel < max (50 * machineEps) halfE28) :
    GKWorkspace.Integrate T ws f a b epsrel epsabs abserr0 neval0 =
      ({ ret := 0, abserrOut := abserr0, nevalOut := neval0, diag := some 1 }, ws) := by
  unfold GKWorkspace.Integrate
  rw [if_pos ⟨hea, lt_max_iff.mp her⟩]

/-- Witness for C1 at the concrete input epsabs = 0, epsrel = 0. -/
theorem integrate_invalid_tolerance_early_return_witness :
    (0 : ℚ) ≤ 0 ∧ (0 : ℚ) < max (50 * machineEps) halfE28 ∧
      GKWorkspace.Integrate zeroTables ws4 (fun v => v) 0 1 0 0 3 7 =
        ({ ret := 0, abserrOut := 3, nevalOut := 7, diag := some 1 }, ws4) :=
  ⟨by decide, by decide,
    integrate_invalid_tolerance_early_return zeroTables ws4 (fun v => v) 0 1 0 0 3 7
      (by decide) (by decide)⟩

/-- C5 counterexample: with `epsabs = 0, epsrel = 0` the early
InvalidTolerance return of lines 92-96 performs `return 0` without
writing through the `neval` out-parameter, so a caller whose neval
variable held 7 still sees 7 afterwards, not 0: the claim that nevals is
set to 0 is false on the code. -/
theorem integrate_zero_tol_neval_not_set :
    (GKWorkspace.Integrate zeroTables ws4 (fun v => v) 0 1 0 0 0 7).1.diag = some 1 ∧
      (GKWorkspace.Integrate zeroTables ws4 (fun v => v) 0 1 0 0 0 7).1.nevalOut ≠ 0 := by
  decide

/-- C5 (amended): calling Integrate with `epsabs = 0` and `epsrel = 0`
returns the InvalidTolerance diagnostic and leaves the nevals
out-parameter unchanged (the early-return path never writes it). -/
theorem integrate_zero_tol_keeps_neval (T : GKTables) (ws : GKWorkspace)
    (f : ℚ → ℚ) (a b abserr0 : ℚ) (neval0 : ℕ) :
    (GKWorkspace.Integrate T ws f a b 0 0 abserr0 neval0).1.diag = some 1 ∧
      (GKWorkspace.Integrate T ws f a b 0 0 abserr0 neval0).1.nevalOut = neval0 := by
  unfold GKWorkspace.Integrate
  rw [if_pos (by decide : invalidTol 0 0)]
  exact ⟨rfl, rfl⟩

/-- C4: with capacity (limit) 2 and valid tolerances, a run whose error
estimates never decay (the model of a near-singular integrand such as
one behaving like an inverse square root at the left endpoint: every
subinterval reports error 1 while the requested epsabs is 1/1000) exits
the loop with error_code 0 and invokes ReportError(0); the
SubdivisionLimit diagnostic (error code 4) is NOT produced.  The guard
`iteration < limit` stops the do-while after its single pass with
iteration = 1, so the `iteration == limit` test at line 158 (which alone
sets error_code 4) compares 1 with 2 and never fires; for any capacity
at least 2 that test is unreachable, contradicting the claim and the
intent of the comment at line 157. -/
theorem integrate_capacity_two_no_subdivision_limit :
    (GKWorkspace.Integrate oneErrTables (freshGKWorkspace 2) (fun v => v)
        0 1 0 (1 / 1000) 0 0).1.diag = some 0 ∧
      (GKWorkspace.Integrate oneErrTables (freshGKWorkspace 2) (fun v => v)
        0 1 0 (1 / 1000) 0 0).1.diag ≠ some 4 := by
  decide

/-- C7: the substitution entry point hands the composed integrand
`g(u) = f(x(u))*dxdu(u)` and the transformed bounds `(u(a), u(b))` to
exactly the same pool-wrapped adaptive engine as the plain entry point,
unchanged and with no extra error control: the two calls are literally
the same computation, so result, abserr, nevals, diagnostic and the
final pool state all coincide. -/
theorem integrateSub_refines_plain (T : GKTables) (p : GKPool) (f : ℚ → ℚ)
    (a b epsrel epsabs abserr0 : ℚ) (neval0 : ℕ) (s : SubStrategy) :
    IntegrateSub T p f a b epsrel epsabs abserr0 neval0 s =
      Integrate T p (SubFunc f s) (s.u a) (s.u b) epsrel epsabs abserr0 neval0 := rfl

/-- C8: every call of the public Integrate wrapper acquires one
workspace before integrating and releases that same workspace before
returning (the wrapper body runs acquire, engine, release on every path,
including the early InvalidTolerance failure, which returns normally
through the engine); hence after the call the in-use flags of all
previously registered workspaces are exactly as before, and when the
acquisition had to register a fresh workspace, that workspace too ends
up free. -/
theorem integrate_pool_flags_restored (T : GKTables) (p : GKPool) (f : ℚ → ℚ)
    (a b epsrel epsabs abserr0 : ℚ) (neval0 : ℕ) :
    (Integrate T p f a b epsrel epsabs abserr0 neval0).2.map Prod.snd =
        p.map Prod.snd ∨
      (Integrate T p f a b epsrel epsabs abserr0 neval0).2.map Prod.snd =
        p.map Prod.snd ++ [false] :=
  pool_roundtrip _ p

/-- C2: GaussKronrod15 evaluates the integrand exactly 15 times, once at
the midpoint and once at each point of 7 symmetric pairs around it
(`gk15EvalPoints` lists the calls in source order; the third conjunct
exhibits it as the midpoint followed by seven symmetric pairs, and the
second states the count).  The first conjunct is the purity content of
the claim: the (estimate, error, resabs, resasc) output is a
deterministic function of the values of f at those 15 points alone, with
no state read or modified — two integrands agreeing there give
identical outputs. -/
theorem gaussKronrod15_fifteen_evals (T : GKTables) (f g : ℚ → ℚ) (a b : ℚ)
    (h : ∀ p ∈ gk15EvalPoints T a b, f p = g p) :
    GKWorkspace.GaussKronrod15 T f a b = GKWorkspace.GaussKronrod15 T g a b ∧
      (gk15EvalPoints T a b).length = 15 ∧
      gk15EvalPoints T a b =
        gkCenter a b ::
          (symmPair (gkCenter a b) (gkHalf a b * T.xgk15 1) ++
           symmPair (gkCenter a b) (gkHalf a b * T.xgk15 3) ++
           symmPair (gkCenter a b) (gkHalf a b * T.xgk15 5) ++
           symmPair (gkCenter a b) (gkHalf a b * T.xgk15 0) ++
           symmPair (gkCenter a b) (gkHalf a b * T.xgk15 2) ++
           symmPair (gkCenter a b) (gkHalf a b * T.xgk15 4) ++
           symmPair (gkCenter a b) (gkHalf a b * T.xgk15 6)) := by
  have hc := h (gkCenter a b) (by simp [gk15EvalPoints])
  have h0m := h (gkCenter a b - gkHalf a b * T.xgk15 0) (by simp [gk15EvalPoints])
  have h0p := h (gkCenter a b + gkHalf a b * T.xgk15 0) (by simp [gk15EvalPoints])
  have h1m := h (gkCenter a b - gkHalf a b * T.xgk15 1) (by simp [gk15EvalPoints])
  have h1p := h (gkCenter a b + gkHalf a b * T.xgk15 1) (by simp [gk15EvalPoints])
  have h2m := h (gkCenter a b - gkHalf a b * T.xgk15 2) (by simp [gk15EvalPoints])
  have h2p := h (gkCenter a b + gkHalf a b * T.xgk15 2) (by simp [gk15EvalPoints])
  have h3m := h (gkCenter a b - gkHalf a b * T.xgk15 3) (by simp [gk15EvalPoints])
  have h3p := h (gkCenter a b + gkHalf a b * T.xgk15 3) (by simp [gk15EvalPoints])
  have h4m := h (gkCenter a b - gkHalf a b * T.xgk15 4) (by simp [gk15EvalPoints])
  have h4p := h (gkCenter a b + gkHalf a b * T.xgk15 4) (by simp [gk15EvalPoints])
  have h5m := h (gkCenter a b - gkHalf a b * T.xgk15 5) (by simp [gk15EvalPoints])
  have h5p := h (gkCenter a b + gkHalf a b * T.xgk15 5) (by simp [gk15EvalPoints])
  have h6m := h (gkCenter a b - gkHalf a b * T.xgk15 6) (by simp [gk15EvalPoints])
  have h6p := h (gkCenter a b + gkHalf a b * T.xgk15 6) (by simp [gk15EvalPoints])
  refine ⟨?_, rfl, by simp [gk15EvalPoints, symmPair]⟩
  have e1 : gkFv1 T f a b = gkFv1 T g a b := by
    funext j
    unfold gkFv1
    rcases j with ⟨jv, hjv⟩
    interval_cases jv
    · simpa using h0m
    · simpa using h1m
    · simpa using h2m
    · simpa using h3m
    · simpa using h4m
    · simpa using h5m
    · simpa using h6m
    · rfl
  have e2 : gkFv2 T f a b = gkFv2 T g a b := by
    funext j
    unfold gkFv2
    rcases j with ⟨jv, hjv⟩
    interval_cases jv
    · simpa using h0p
    · simpa using h1p
    · simpa using h2p
    · simpa using h3p
    · simpa using h4p
    · simpa using h5p
    · simpa using h6p
    · rfl
  unfold GKWorkspace.GaussKronrod15
  rw [hc, e1, e2]

/-- Witness for C2: two syntactically different integrands that agree on
the 15 evaluation points give identical outputs; the point list has the
stated shape. -/
theorem gaussKronrod15_fifteen_evals_witness :
    GKWorkspace.GaussKronrod15 zeroTables (fun v => v) 0 1 =
        GKWorkspace.GaussKronrod15 zeroTables (fun v => v + 0) 0 1 ∧
      (gk15EvalPoints zeroTables 0 1).length = 15 ∧
      gk15EvalPoints zeroTables 0 1 =
        gkCenter 0 1 ::
          (symmPair (gkCenter 0 1) (gkHalf 0 1 * zeroTables.xgk15 1) ++
           symmPair (gkCenter 0 1) (gkHalf 0 1 * zeroTables.xgk15 3) ++
           symmPair (gkCenter 0 1) (gkHalf 0 1 * zeroTables.xgk15 5) ++
           symmPair (gkCenter 0 1) (gkHalf 0 1 * zeroTables.xgk15 0) ++
           symmPair (gkCenter 0 1) (gkHalf 0 1 * zeroTables.xgk15 2) ++
           symmPair (gkCenter 0 1) (gkHalf 0 1 * zeroTables.xgk15 4) ++
           symmPair (gkCenter 0 1) (gkHalf 0 1 * zeroTables.xgk15 6)) :=
  gaussKronrod15_fifteen_evals zeroTables (fun v => v) (fun v => v + 0) 0 1
    (fun p _ => by simp)

/-- C3: swapping the integration bounds negates the returned result and
leaves both out-parameters (abserr and the evaluation count) unchanged,
for every integrand and valid tolerance request.  For distinct bounds
the direction normalisation of lines 98-105 makes both calls run the
identical computation on the ordered pair, differing only in the final
sign; for equal bounds both calls coincide and the result is 0 because
every stored subinterval has zero width. -/
theorem integrate_swapped_bounds_negates (T : GKTables) (ws : GKWorkspace)
    (f : ℚ → ℚ) (a b epsrel epsabs abserr0 : ℚ) (neval0 : ℕ)
    (h : ¬ invalidTol epsrel epsabs) :
    (GKWorkspace.Integrate T ws f b a epsrel epsabs abserr0 neval0).1.ret =
        -(GKWorkspace.Integrate T ws f a b epsrel epsabs abserr0 neval0).1.ret ∧
      (GKWorkspace.Integrate T ws f b a epsrel epsabs abserr0 neval0).1.abserrOut =
        (GKWorkspace.Integrate T ws f a b epsrel epsabs abserr0 neval0).1.abserrOut ∧
      (GKWorkspace.Integrate T ws f b a epsrel epsabs abserr0 neval0).1.nevalOut =
        (GKWorkspace.Integrate T ws f a b epsrel epsabs abserr0 neval0).1.nevalOut := by
  unfold GKWorkspace.Integrate
  rw [if_neg h, if_neg h]
  rcases lt_trichotomy a b with hab | hab | hab
  · rw [if_pos hab, if_neg (not_lt.mpr hab.le)]
    refine ⟨?_, rfl, rfl⟩
    show (-1 : ℚ) * _ = -((1 : ℚ) * _)
    ring
  · subst hab
    rw [if_neg (lt_irrefl a)]
    refine ⟨?_, rfl, rfl⟩
    show (1 : ℚ) * (GKCore T ws f a a epsrel epsabs).ws.sumRlist =
      -((1 : ℚ) * (GKCore T ws f a a epsrel epsabs).ws.sumRlist)
    rw [GKCore_self_sumRlist]
    ring
  · rw [if_neg (not_lt.mpr hab.le), if_pos hab]
    refine ⟨?_, rfl, rfl⟩
    show (1 : ℚ) * _ = -((-1 : ℚ) * _)
    ring

/-- Witness for C3 at a concrete valid-tolerance call. -/
theorem integrate_swapped_bounds_negates_witness :
    (GKWorkspace.Integrate zeroTables ws4 (fun v => v) 1 0 0 1 0 0).1.ret =
        -(GKWorkspace.Integrate zeroTables ws4 (fun v => v) 0 1 0 1 0 0).1.ret ∧
      (GKWorkspace.Integrate zeroTables ws4 (fun v => v) 1 0 0 1 0 0).1.abserrOut =
        (GKWorkspace.Integrate zeroTables ws4 (fun v => v) 0 1 0 1 0 0).1.abserrOut ∧
      (GKWorkspace.Integrate zeroTables ws4 (fun v => v) 1 0 0 1 0 0).1.nevalOut =
        (GKWorkspace.Integrate zeroTables ws4 (fun v => v) 0 1 0 1 0 0).1.nevalOut :=
  integrate_swapped_bounds_negates zeroTables ws4 (fun v => v) 0 1 0 1 0 0 (by decide)

/-- Counting facts about one core run: starting from the bootstrap state
(iteration 1, 15 evaluations, one stored interval), the loop performs at
least one pass, and evaluations and stored intervals track the iteration
counter exactly. -/
theorem GKCore_counts (T : GKTables) (ws : GKWorkspace) (f : ℚ → ℚ)
    (lo hi er ea : ℚ) :
    1 < (GKCore T ws f lo hi er ea).iteration ∧
      (GKCore T ws f lo hi er ea).neval + 30 * 1 =
        15 + 30 * (GKCore T ws f lo hi er ea).iteration ∧
      (GKCore T ws f lo hi er ea).ws.size + 1 =
        1 + (GKCore T ws f lo hi er ea).iteration := by
  have h : 1 < (GKCore T ws f lo hi er ea).iteration ∧
      (GKCore T ws f lo hi er ea).neval + 30 * 1 =
        15 + 30 * (GKCore T ws f lo hi er ea).iteration ∧
      (GKCore T ws f lo hi er ea).ws.size + 1 =
        1 + (GKCore T ws f lo hi er ea).iteration :=
    gkLoop_counts T f er ea
      (ws.initSeed lo hi (GKWorkspace.GaussKronrod15 T f lo hi).estimate
        (GKWorkspace.GaussKronrod15 T f lo hi).abserr).limit
      { ws := ws.initSeed lo hi (GKWorkspace.GaussKronrod15 T f lo hi).estimate
          (GKWorkspace.GaussKronrod15 T f lo hi).abserr
        area := (GKWorkspace.GaussKronrod15 T f lo hi).estimate
        errsum := (GKWorkspace.GaussKronrod15 T f lo hi).abserr
        tolerance := 0
        errorCode := 0
        iteration := 1
        neval := 15 }
  exact h

/-- C6: on every valid-tolerance run the reported nevals equals
15 + 30*k where k >= 1 is the number of executed bisection passes of the
main loop (the final iteration counter minus its initial value 1): the
bootstrap contributes exactly 15 evaluations and every pass exactly 30
(15 per child). -/
theorem integrate_neval_formula (T : GKTables) (ws : GKWorkspace) (f : ℚ → ℚ)
    (a b epsrel epsabs abserr0 : ℚ) (neval0 : ℕ)
    (h : ¬ invalidTol epsrel epsabs) :
    (GKWorkspace.Integrate T ws f a b epsrel epsabs abserr0 neval0).1.nevalOut =
        15 + 30 * ((GKCore T ws f (if b < a then b else a)
          (if b < a then a else b) epsrel epsabs).iteration - 1) ∧
      2 ≤ (GKCore T ws f (if b < a then b else a)
          (if b < a then a else b) epsrel epsabs).iteration := by
  unfold GKWorkspace.Integrate
  rw [if_neg h]
  by_cases hba : b < a
  · rw [if_pos hba]
    simp only [if_pos hba]
    have hc := GKCore_counts T ws f b a epsrel epsabs
    have hn : (gkFinish T ws f b a (-1) epsrel epsabs).1.nevalOut =
        (GKCore T ws f b a epsrel epsabs).neval := rfl
    rw [hn]
    omega
  · rw [if_neg hba]
    simp only [if_neg hba]
    have hc := GKCore_counts T ws f a b epsrel epsabs
    have hn : (gkFinish T ws f a b 1 epsrel epsabs).1.nevalOut =
        (GKCore T ws f a b epsrel epsabs).neval := rfl
    rw [hn]
    omega

/-- Witness for C6 at a concrete valid-tolerance call. -/
theorem integrate_neval_formula_witness :
    (GKWorkspace.Integrate zeroTables ws4 (fun v => v) 0 1 0 1 0 0).1.nevalOut =
        15 + 30 * ((GKCore zeroTables ws4 (fun v => v) (if (1:ℚ) < 0 then 1 else 0)
          (if (1:ℚ) < 0 then 0 else 1) 0 1).iteration - 1) ∧
      2 ≤ (GKCore zeroTables ws4 (fun v => v) (if (1:ℚ) < 0 then 1 else 0)
          (if (1:ℚ) < 0 then 0 else 1) 0 1).iteration :=
  integrate_neval_formula zeroTables ws4 (fun v => v) 0 1 0 1 0 0 (by decide)

/-- C9: the main loop is a do-while (line 130/165), so even when the
bootstrap estimate already meets the tolerance at least one bisection
pass executes: every valid-tolerance call reports at least 45
evaluations and leaves at least two live subintervals in the
workspace. -/
theorem integrate_at_least_one_pass (T : GKTables) (ws : GKWorkspace)
    (f : ℚ → ℚ) (a b epsrel epsabs abserr0 : ℚ) (neval0 : ℕ)
    (h : ¬ invalidTol epsrel epsabs) :
    45 ≤ (GKWorkspace.Integrate T ws f a b epsrel epsabs abserr0 neval0).1.nevalOut ∧
      2 ≤ (GKCore T ws f (if b < a then b else a)
          (if b < a then a else b) epsrel epsabs).ws.size := by
  unfold GKWorkspace.Integrate
  rw [if_neg h]
  by_cases hba : b < a
  · rw [if_pos hba]
    simp only [if_pos hba]
    have hc := GKCore_counts T ws f b a epsrel epsabs
    have hn : (gkFinish T ws f b a (-1) epsrel epsabs).1.nevalOut =
        (GKCore T ws f b a epsrel epsabs).neval := rfl
    rw [hn]
    omega
  · rw [if_neg hba]
    simp only [if_neg hba]
    have hc := GKCore_counts T ws f a b epsrel epsabs
    have hn : (gkFinish T ws f a b 1 epsrel epsabs).1.nevalOut =
        (GKCore T ws f a b epsrel epsabs).neval := rfl
    rw [hn]
    omega

/-- Witness for C9 at a concrete valid-tolerance call whose bootstrap
already satisfies the tolerance. -/
theorem integrate_at_least_one_pass_witness :
    45 ≤ (GKWorkspace.Integrate zeroTables ws4 (fun v => v) 0 1 0 1 0 0).1.nevalOut ∧
      2 ≤ (GKCore zeroTables ws4 (fun v => v) (if (1:ℚ) < 0 then 1 else 0)
          (if (1:ℚ) < 0 then 0 else 1) 0 1).ws.size :=
  integrate_at_least_one_pass zeroTables ws4 (fun v => v) 0 1 0 1 0 0 (by decide)

/-- Two core runs from workspaces of equal capacity but arbitrary
different prior buffer contents stay in lockstep: the call overwrites
the live count and slot 0 before any read, and every later read touches
only slots written during this call. -/
theorem GKCore_agree (T : GKTables) (w1 w2 : GKWorkspace) (f : ℚ → ℚ)
    (lo hi er ea : ℚ) (h : w1.limit = w2.limit) :
    stAgree (GKCore T w1 f lo hi er ea) (GKCore T w2 f lo hi er ea) := by
  have hinit : stAgree
      { ws := w1.initSeed lo hi (GKWorkspace.GaussKronrod15 T f lo hi).estimate
          (GKWorkspace.GaussKronrod15 T f lo hi).abserr
        area := (GKWorkspace.GaussKronrod15 T f lo hi).estimate
        errsum := (GKWorkspace.GaussKronrod15 T f lo hi).abserr
        tolerance := 0
        errorCode := 0
        iteration := 1
        neval := 15 }
      { ws := w2.initSeed lo hi (GKWorkspace.GaussKronrod15 T f lo hi).estimate
          (GKWorkspace.GaussKronrod15 T f lo hi).abserr
        area := (GKWorkspace.GaussKronrod15 T f lo hi).estimate
        errsum := (GKWorkspace.GaussKronrod15 T f lo hi).abserr
        tolerance := 0
        errorCode := 0
        iteration := 1
        neval := 15 } := by
    refine ⟨⟨h, rfl, ?_⟩, rfl, rfl, rfl, rfl, rfl, rfl⟩
    intro j hj
    have hj0 : j = 0 := by
      simpa [GKWorkspace.initSeed] using hj
    subst hj0
    simp [GKWorkspace.initSeed]
  show stAgree
    (gkLoop T f er ea w1.limit
      { ws := w1.initSeed lo hi (GKWorkspace.GaussKronrod15 T f lo hi).estimate
          (GKWorkspace.GaussKronrod15 T f lo hi).abserr
        area := (GKWorkspace.GaussKronrod15 T f lo hi).estimate
        errsum := (GKWorkspace.GaussKronrod15 T f lo hi).abserr
        tolerance := 0
        errorCode := 0
        iteration := 1
        neval := 15 })
    (gkLoop T f er ea w2.limit
      { ws := w2.initSeed lo hi (GKWorkspace.GaussKronrod15 T f lo hi).estimate
          (GKWorkspace.GaussKronrod15 T f lo hi).abserr
        area := (GKWorkspace.GaussKronrod15 T f lo hi).estimate
        errsum := (GKWorkspace.GaussKronrod15 T f lo hi).abserr
        tolerance := 0
        errorCode := 0
        iteration := 1
        neval := 15 })
  rw [← h]
  exact gkLoop_agree T f er ea w1.limit _ _ hinit Nat.one_pos

/-- The observable result record of a finished run depends on the
starting workspace only through its capacity. -/
theorem gkFinish_agree (T : GKTables) (w1 w2 : GKWorkspace) (f : ℚ → ℚ)
    (lo hi sign er ea : ℚ) (h : w1.limit = w2.limit) :
    (gkFinish T w1 f lo hi sign er ea).1 = (gkFinish T w2 f lo hi sign er ea).1 := by
  obtain ⟨hws, -, -, htol, hec, -, hnev⟩ := GKCore_agree T w1 w2 f lo hi er ea h
  have hr := sumRlist_agree _ _ hws
  have he := sumElist_agree _ _ hws
  unfold gkFinish
  simp only []
  rw [hr, he, htol, hec, hnev]

/-- C10: two runs of GKWorkspace::Integrate with the same integrand,
bounds, tolerances and capacity, on workspaces whose buffers
(alist, blist, rlist, elist, order) and live count hold arbitrary
different prior contents, produce identical
(result, abserr, nevals, diagnostic): lines 111-117 reinitialise the
live count and slot 0 before any use, and no later read leaves the live
prefix, so the outputs never depend on stale state left by a previous
integration that reused the workspace. -/
theorem integrate_stale_state_independent (T : GKTables) (f : ℚ → ℚ)
    (a b epsrel epsabs abserr0 : ℚ) (neval0 : ℕ) (ws1 ws2 : GKWorkspace)
    (h : ws1.limit = ws2.limit) :
    (GKWorkspace.Integrate T ws1 f a b epsrel epsabs abserr0 neval0).1 =
      (GKWorkspace.Integrate T ws2 f a b epsrel epsabs abserr0 neval0).1 := by
  unfold GKWorkspace.Integrate
  by_cases hv : invalidTol epsrel epsabs
  · rw [if_pos hv, if_pos hv]
  · rw [if_neg hv, if_neg hv]
    by_cases hba : b < a
    · rw [if_pos hba, if_pos hba]
      exact gkFinish_agree T ws1 ws2 f b a (-1) epsrel epsabs h
    · rw [if_neg hba, if_neg hba]
      exact gkFinish_agree T ws1 ws2 f a b 1 epsrel epsabs h

/-- Witness for C10: a clean workspace and one full of stale interval
data (and a bogus live count) give identical observable results. -/
theorem integrate_stale_state_independent_witness :
    (GKWorkspace.Integrate zeroTables ws4 (fun v => v) 0 1 0 1 0 0).1 =
      (GKWorkspace.Integrate zeroTables staleWs4 (fun v => v) 0 1 0 1 0 0).1 :=
  integrate_stale_state_independent zeroTables (fun v => v) 0 1 0 1 0 0 ws4 staleWs4
    (by decide)
